import Mathlib

/- Verification of the CalisMind RAG pipeline: chunking, vector-store build,
   citation formatting, retrieval configuration, and chat orchestration,
   embedded from the Python sources (src/config.py, src/vectorize.py,
   src/app.py, src/rag_setup.py, src/langchain_app.py). -/

namespace CalisMind

/-- Number of characters per chunk, from src/config.py (`CHUNK_SIZE = 1000`). -/
def CHUNK_SIZE : Nat := 1000

/-- Number of overlapping characters between consecutive chunks, from
src/config.py (`CHUNK_OVERLAP = 200`). -/
def CHUNK_OVERLAP : Nat := 200

/-- Number of top chunks to retrieve from the vector store for each query,
from src/config.py (`K_RESULTS = 25`). -/
def K_RESULTS : Nat := 25

/-- Modelled from the spec: the text splitter used by
`load_and_process_documents` in src/vectorize.py is `CharacterTextSplitter`
from the langchain library, whose implementation is not part of this
repository; the splitting algorithm here follows the spec's words: scan the
text greedily from the start, emitting windows of length `chunk_size`
characters, advancing the window start by `chunk_size - chunk_overlap` each
step, stopping when the remaining text is fully covered; the final window
may be shorter than `chunk_size`. `fuel` bounds the recursion; the text
length always suffices. -/
def splitTextGo (S step : Nat) : Nat → List Char → List (List Char)
  | 0, s => [s]
  | fuel + 1, s =>
    if s.length ≤ S ∨ step = 0 then [s]
    else s.take S :: splitTextGo S step fuel (s.drop step)

/-- Modelled from the spec: split one text into greedy overlapping windows of
length `S` whose starts advance by `S - O`. -/
def splitText (S O : Nat) (s : List Char) : List (List Char) :=
  splitTextGo S (S - O) s.length s

/-- With enough fuel, the number of windows emitted by the greedy splitter is
`ceil (max (L - O) 1 / (S - O))`, written with natural division as
`(max (L - O) 1 + (S - O) - 1) / (S - O)`. -/
theorem splitTextGo_length_eq (S O : Nat) (hO : O < S) :
    ∀ (fuel : Nat) (s : List Char), s.length ≤ fuel →
      (splitTextGo S (S - O) fuel s).length
        = (max (s.length - O) 1 + (S - O) - 1) / (S - O) := by
  have hd : 0 < S - O := Nat.sub_pos_of_lt hO
  intro fuel
  induction fuel with
  | zero =>
    intro s hs
    have h0 : s.length = 0 := Nat.le_zero.mp hs
    have hnum : max (s.length - O) 1 + (S - O) - 1 = S - O := by
      rw [h0]; omega
    rw [hnum]
    simp [splitTextGo, Nat.div_self hd]
  | succ fuel ih =>
    intro s hs
    by_cases hle : s.length ≤ S
    · have hsplit : splitTextGo S (S - O) (fuel + 1) s = [s] := by
        simp [splitTextGo, hle]
      rw [hsplit, List.length_singleton]
      have hm1 : 1 ≤ max (s.length - O) 1 := le_max_right _ _
      have hm2 : max (s.length - O) 1 ≤ S - O :=
        max_le (by omega) hd
      exact (Nat.div_eq_of_lt_le (by omega) (by omega)).symm
    · push_neg at hle
      have hcond : ¬(s.length ≤ S ∨ S - O = 0) := by omega
      have hsplit : splitTextGo S (S - O) (fuel + 1) s
          = s.take S :: splitTextGo S (S - O) fuel (s.drop (S - O)) := by
        rw [splitTextGo, if_neg hcond]
      rw [hsplit]
      have hdroplen : (s.drop (S - O)).length = s.length - (S - O) :=
        List.length_drop _ _
      have hfuel : (s.drop (S - O)).length ≤ fuel := by
        rw [hdroplen]; omega
      rw [List.length_cons, ih _ hfuel, hdroplen]
      have ha : max (s.length - O) 1 = s.length - O := max_eq_left (by omega)
      have hb : max (s.length - (S - O) - O) 1 = s.length - (S - O) - O :=
        max_eq_left (by omega)
      rw [ha, hb]
      have h1 : s.length - (S - O) - O + (S - O) - 1 = s.length - O - 1 := by
        omega
      have h2 : s.length - O + (S - O) - 1 = s.length - O - 1 + (S - O) := by
        omega
      rw [h1, h2, Nat.add_div_right _ hd]

/-- Splitting a document of length `L` with overlap `O < S` yields exactly
`ceil (max (L - O) 1 / (S - O))` windows. -/
theorem splitText_length (S O : Nat) (hO : O < S) (s : List Char) :
    (splitText S O s).length
      = (max (s.length - O) 1 + (S - O) - 1) / (S - O) :=
  splitTextGo_length_eq S O hO s.length s (Nat.le_refl _)

/-- A document no longer than the chunk size is returned as a single window
equal to the whole text. -/
theorem splitText_of_le (S O : Nat) (s : List Char) (h : s.length ≤ S) :
    splitText S O s = [s] := by
  unfold splitText
  cases hL : s.length with
  | zero => simp [splitTextGo]
  | succ n => simp [splitTextGo, h]

/-- C1: with the configured chunk_size S = 1000 and chunk_overlap O = 200,
splitting a document of length L produces exactly
`ceil (max (L - O) 1 / (S - O))` chunks via greedy windows advancing by
`S - O`, and a document with `L ≤ S` yields exactly one chunk equal to the
whole text. -/
theorem chunk_count_formula (s : List Char) :
    (splitText CHUNK_SIZE CHUNK_OVERLAP s).length
      = (max (s.length - CHUNK_OVERLAP) 1 + (CHUNK_SIZE - CHUNK_OVERLAP) - 1)
          / (CHUNK_SIZE - CHUNK_OVERLAP) ∧
    (s.length ≤ CHUNK_SIZE → splitText CHUNK_SIZE CHUNK_OVERLAP s = [s]) :=
  ⟨splitText_length CHUNK_SIZE CHUNK_OVERLAP (by decide) s,
   fun h => splitText_of_le CHUNK_SIZE CHUNK_OVERLAP s h⟩

/-- C1 witness: the two-character document is short enough for one chunk, and
the count formula evaluates to 1 there. -/
theorem chunk_count_formula_witness :
    splitText CHUNK_SIZE CHUNK_OVERLAP [Char.ofNat 97, Char.ofNat 98]
        = [[Char.ofNat 97, Char.ofNat 98]] ∧
    (splitText CHUNK_SIZE CHUNK_OVERLAP [Char.ofNat 97, Char.ofNat 98]).length
        = 1 := by
  refine ⟨(chunk_count_formula _).2 (by decide), ?_⟩
  rw [(chunk_count_formula [Char.ofNat 97, Char.ofNat 98]).1]
  decide

/-- A langchain document or chunk: page content plus a metadata dictionary,
modelled as an association list (most recent binding first). -/
structure Doc where
  text : String
  metadata : List (String × String)
deriving DecidableEq

/-- Python dict assignment `m[k] = v`, modelled by prepending the binding so
that `List.lookup` returns the most recent value for each key. -/
def dictSet (m : List (String × String)) (k v : String) :
    List (String × String) :=
  (k, v) :: m

/-- The `add_metadata` function of src/vectorize.py: sets
`doc.metadata["author"]` and `doc.metadata["book"]` and returns the document. -/
def add_metadata (doc : Doc) (authorName bookName : String) : Doc :=
  { text := doc.text
    metadata := dictSet (dictSet doc.metadata "author" authorName)
      "book" bookName }

/-- Modelled from the spec: `split_documents` of the langchain text splitter
(not part of this repository) applied to one document — each window of the
document's text becomes a chunk that inherits the parent document's metadata
unchanged. -/
def split_document (S O : Nat) (doc : Doc) : List Doc :=
  (splitText S O doc.text.data).map
    (fun cs => { text := String.mk cs, metadata := doc.metadata })

/-- Modelled from the spec: `text_splitter.split_documents(documents)` as
called by `load_and_process_documents` in src/vectorize.py. -/
def split_documents (S O : Nat) (docs : List Doc) : List Doc :=
  docs.flatMap (split_document S O)

/-- The author fallback lookup of `user_prompt` in src/app.py line 34:
`doc.metadata.get("author", "Unknown Author")`. -/
def authorOf (d : Doc) : String :=
  (d.metadata.lookup "author").getD "Unknown Author"

/-- The book fallback lookup of `user_prompt` in src/app.py line 35:
`doc.metadata.get("book", "Unknown Book")`. -/
def bookOf (d : Doc) : String :=
  (d.metadata.lookup "book").getD "Unknown Book"

/-- The reference line format of src/app.py line 37 applied to an
(author, book) pair. -/
def fmtPair (p : String × String) : String :=
  "- " ++ p.1 ++ " in \"" ++ p.2 ++ "\""

/-- The (author, book) pair extracted from a retrieved document by
`user_prompt`, with the fallback defaults for missing keys. -/
def pairOf (d : Doc) : String × String :=
  (authorOf d, bookOf d)

/-- One formatted reference line for a retrieved document, src/app.py
line 37. -/
def fmtRef (d : Doc) : String :=
  fmtPair (pairOf d)

/-- The deduplicated citation lines of `user_prompt`:
`set(retrieved_references)` in src/app.py line 40 (set semantics — the lines
kept, with duplicates collapsed; Python's set order is unspecified). -/
def citationLines (results : List Doc) : List String :=
  (results.map fmtRef).dedup

/-- The distinct (author, book) pairs among the retrieved documents. -/
def uniquePairs (results : List Doc) : List (String × String) :=
  (results.map pairOf).dedup

/-- The `user_prompt` function of src/app.py (identical in src/rag_setup.py):
returns only the user input when retrieval produced no results, otherwise
appends a Sources section containing the deduplicated reference lines joined
with newlines and a trailing period. -/
def user_prompt (userInput : String) (results : List Doc) : String :=
  if results.isEmpty then
    "User Input: " ++ userInput
  else
    "User Input: " ++ userInput ++ "\n\nSources:\n"
      ++ String.intercalate "\n" (citationLines results) ++ "."

/-- C7: when retrieval returns zero chunks, the assembled prompt is the user
input alone — the citation block and the Sources header are omitted
entirely. -/
theorem prompt_empty_retrieval (userInput : String) :
    user_prompt userInput [] = "User Input: " ++ userInput :=
  rfl

/-- Deduplicating after mapping can only lower the number of distinct
elements. -/
theorem dedup_map_length_le {α β : Type} [DecidableEq α] [DecidableEq β]
    (l : List α) (g : α → β) :
    ((l.map g).dedup).length ≤ l.dedup.length := by
  rw [← List.card_toFinset, ← List.card_toFinset]
  have h : (l.map g).toFinset = l.toFinset.image g := by
    ext x; simp
  rw [h]
  exact Finset.card_image_le

/-- C4 counterexample: two retrieved documents with distinct (author, book)
pairs whose formatted reference lines coincide — the citation block contains
one line, not one line per unique pair. -/
theorem citation_pair_collision :
    (citationLines
        [⟨"t1", [("author", "X"), ("book", "Y in \"Z")]⟩,
         ⟨"t2", [("author", "X in \"Y"), ("book", "Z")]⟩]).length = 1 ∧
    (uniquePairs
        [⟨"t1", [("author", "X"), ("book", "Y in \"Z")]⟩,
         ⟨"t2", [("author", "X in \"Y"), ("book", "Z")]⟩]).length = 2 ∧
    (citationLines
        [⟨"t1", [("author", "X"), ("book", "Y in \"Z")]⟩,
         ⟨"t2", [("author", "X in \"Y"), ("book", "Z")]⟩]).length ≠
      (uniquePairs
        [⟨"t1", [("author", "X"), ("book", "Y in \"Z")]⟩,
         ⟨"t2", [("author", "X in \"Y"), ("book", "Z")]⟩]).length := by
  refine ⟨?_, ?_, ?_⟩ <;> decide

/-- C4 amended: the citation block contains exactly one line per unique
formatted reference string: the lines are pairwise distinct, every retrieved
document's formatted reference appears among them, and there are at most as
many lines as distinct (author, book) pairs (distinct pairs whose formatted
strings coincide share one line). -/
theorem citation_unique_lines (results : List Doc) (_hne : results ≠ []) :
    (citationLines results).Nodup ∧
    (citationLines results).length ≤ (uniquePairs results).length ∧
    ∀ d, d ∈ results → fmtRef d ∈ citationLines results := by
  refine ⟨List.nodup_dedup _, ?_, ?_⟩
  · have hmm : results.map fmtRef = (results.map pairOf).map fmtPair := by
      rw [List.map_map]
      rfl
    rw [citationLines, uniquePairs, hmm]
    exact dedup_map_length_le (results.map pairOf) fmtPair
  · intro d hd
    exact List.mem_dedup.mpr (List.mem_map.mpr ⟨d, hd, rfl⟩)

/-- C4 witness: for retrieved chunks with metadata
(A, Book1), (A, Book1), (B, Book2) the citation block has exactly two
pairwise-distinct lines, and the first chunk's reference line is among
them. -/
theorem citation_unique_lines_witness :
    (citationLines
        [⟨"t1", [("author", "A"), ("book", "Book1")]⟩,
         ⟨"t2", [("author", "A"), ("book", "Book1")]⟩,
         ⟨"t3", [("author", "B"), ("book", "Book2")]⟩]).Nodup ∧
    (citationLines
        [⟨"t1", [("author", "A"), ("book", "Book1")]⟩,
         ⟨"t2", [("author", "A"), ("book", "Book1")]⟩,
         ⟨"t3", [("author", "B"), ("book", "Book2")]⟩]).length = 2 ∧
    fmtRef ⟨"t1", [("author", "A"), ("book", "Book1")]⟩ ∈
      citationLines
        [⟨"t1", [("author", "A"), ("book", "Book1")]⟩,
         ⟨"t2", [("author", "A"), ("book", "Book1")]⟩,
         ⟨"t3", [("author", "B"), ("book", "Book2")]⟩] := by
  obtain ⟨h1, _, h3⟩ := citation_unique_lines
    [⟨"t1", [("author", "A"), ("book", "Book1")]⟩,
     ⟨"t2", [("author", "A"), ("book", "Book1")]⟩,
     ⟨"t3", [("author", "B"), ("book", "Book2")]⟩] (by decide)
  exact ⟨h1, by decide, h3 _ (by decide)⟩

/-- C10: citation formatting is total over metadata — when the author or book
key is missing, the defaults Unknown Author and Unknown Book are
substituted. -/
theorem fmt_defaults (text : String) (m : List (String × String)) :
    (m.lookup "author" = none →
      fmtRef ⟨text, m⟩
        = "- Unknown Author in \""
            ++ (m.lookup "book").getD "Unknown Book" ++ "\"") ∧
    (m.lookup "book" = none →
      fmtRef ⟨text, m⟩
        = "- " ++ (m.lookup "author").getD "Unknown Author"
            ++ " in \"" ++ "Unknown Book" ++ "\"") := by
  constructor
  · intro h
    simp [fmtRef, fmtPair, pairOf, authorOf, bookOf, h]
  · intro h
    simp [fmtRef, fmtPair, pairOf, authorOf, bookOf, h]

/-- C10 witness: a document with empty metadata formats with both
defaults. -/
theorem fmt_defaults_witness :
    fmtRef ⟨"t", []⟩ = "- Unknown Author in \"Unknown Book\"" :=
  (fmt_defaults "t" []).1 rfl

/-- C6: every chunk produced by splitting a document carries exactly its
parent document's metadata; in particular the author and book fields assigned
by `add_metadata` are preserved through splitting. -/
theorem chunk_inherits_metadata (S O : Nat) (doc : Doc) (a b : String)
    (c : Doc) (hc : c ∈ split_document S O (add_metadata doc a b)) :
    c.metadata = (add_metadata doc a b).metadata ∧
    c.metadata.lookup "author" = some a ∧
    c.metadata.lookup "book" = some b := by
  rw [split_document] at hc
  obtain ⟨cs, _, rfl⟩ := List.mem_map.mp hc
  exact ⟨rfl, rfl, rfl⟩

/-- C6 witness: the single chunk of a short document carries the parent's
author and book metadata exactly. -/
theorem chunk_inherits_metadata_witness :
    ([("book", "Book"), ("author", "Auth")] : List (String × String))
        = (add_metadata ⟨"hi", []⟩ "Auth" "Book").metadata ∧
    (([("book", "Book"), ("author", "Auth")] :
        List (String × String)).lookup "author") = some "Auth" ∧
    (([("book", "Book"), ("author", "Auth")] :
        List (String × String)).lookup "book") = some "Book" :=
  chunk_inherits_metadata CHUNK_SIZE CHUNK_OVERLAP ⟨"hi", []⟩ "Auth" "Book"
    ⟨"hi", [("book", "Book"), ("author", "Auth")]⟩ (by decide)

/-- An embedding record persisted in the vector store: chunk text plus its
embedding vector (modelled from the spec's Embedding Record; the Chroma store
internals are library code, not part of this repository). -/
structure EmbRec where
  text : String
  vector : List Int
deriving DecidableEq

/-- Modelled from the spec: embedding every chunk's text; the embedding
function is an external collaborator that may fail on a chunk (`none`), in
which case the whole build has no result. -/
def embedAll (embed : String → Option (List Int)) :
    List String → Option (List EmbRec)
  | [] => some []
  | t :: ts =>
    match embed t, embedAll embed ts with
    | some v, some rs => some (⟨t, v⟩ :: rs)
    | _, _ => none

/-- The `create_vector_store` function of src/vectorize.py: load any prior
collection, delete it if present, then embed the chunks and persist the new
collection. Returns the build result together with the collection persisted
at the storage location after the call (`none` when nothing is persisted
there). Deletion happens before embedding, exactly as in the source. -/
def create_vector_store (embed : String → Option (List Int))
    (chunks : List String) (prior : Option (List EmbRec)) :
    Except String (List EmbRec) × Option (List EmbRec) :=
  let store := prior
  let afterDelete : Option (List EmbRec) :=
    if store.isSome then none else store
  match embedAll embed chunks with
  | some recs => (Except.ok recs, some recs)
  | none => (Except.error "embedding failed", afterDelete)

/-- Embedding success produces one record per chunk. -/
theorem embedAll_length (embed : String → Option (List Int)) :
    ∀ (chunks : List String) (recs : List EmbRec),
      embedAll embed chunks = some recs → recs.length = chunks.length := by
  intro chunks
  induction chunks with
  | nil =>
    intro recs h
    simp [embedAll] at h
    simp [← h]
  | cons t ts ih =>
    intro recs h
    rw [embedAll] at h
    cases hv : embed t with
    | none => rw [hv] at h; simp at h
    | some v =>
      rw [hv] at h
      cases hr : embedAll embed ts with
      | none => rw [hr] at h; simp at h
      | some rs =>
        rw [hr] at h
        simp at h
        rw [← h, List.length_cons, ih rs hr, List.length_cons]

/-- C3 counterexample: with a prior collection persisted and an embedding
function that fails, `create_vector_store` aborts, but the storage location
holds no collection afterwards — the prior collection is not preserved,
because it was deleted before embedding began. -/
theorem build_failure_loses_prior :
    (create_vector_store (fun _ => none) ["c"]
        (some [⟨"old", [1]⟩])).1 = Except.error "embedding failed" ∧
    (create_vector_store (fun _ => none) ["c"]
        (some [⟨"old", [1]⟩])).2 = none ∧
    (create_vector_store (fun _ => none) ["c"]
        (some [⟨"old", [1]⟩])).2 ≠ some [⟨"old", [1]⟩] :=
  ⟨rfl, rfl, by decide⟩

/-- C3 amended: if the embedding function errors on any chunk, the build
aborts with an error, but the prior collection has already been deleted: no
collection is persisted at the storage location after the failed build. -/
theorem build_failure_leaves_no_collection
    (embed : String → Option (List Int)) (chunks : List String)
    (prior : Option (List EmbRec)) (hfail : embedAll embed chunks = none) :
    create_vector_store embed chunks prior
      = (Except.error "embedding failed", none) := by
  cases prior <;> simp [create_vector_store, hfail]

/-- C3 amended witness: a concrete failed build persists no collection. -/
theorem build_failure_leaves_no_collection_witness :
    create_vector_store (fun _ => none) ["x"] none
      = (Except.error "embedding failed", none) :=
  build_failure_leaves_no_collection (fun _ => none) ["x"] none rfl

/-- C5: a successful build of chunksA followed by a successful build of
chunksB at the same storage location leaves exactly the records of chunksB —
one per chunk of chunksB, with no residue of chunksA. -/
theorem rebuild_replaces (embed : String → Option (List Int))
    (chunksA chunksB : List String) (prior : Option (List EmbRec))
    (recsA recsB : List EmbRec)
    (_hA : embedAll embed chunksA = some recsA)
    (hB : embedAll embed chunksB = some recsB) :
    (create_vector_store embed chunksB
        (create_vector_store embed chunksA prior).2).2 = some recsB ∧
    recsB.length = chunksB.length := by
  constructor
  · simp [create_vector_store, hB]
  · exact embedAll_length embed chunksB recsB hB

/-- C5 witness: rebuilding over a one-chunk collection with two chunks leaves
exactly the two new records. -/
theorem rebuild_replaces_witness :
    (create_vector_store (fun _ => some ([] : List Int)) ["b", "c"]
        (create_vector_store (fun _ => some ([] : List Int)) ["a"]
          none).2).2
      = some [⟨"b", []⟩, ⟨"c", []⟩] ∧
    ([⟨"b", ([] : List Int)⟩, ⟨"c", []⟩] : List EmbRec).length
      = (["b", "c"] : List String).length :=
  rebuild_replaces (fun _ => some ([] : List Int)) ["a"] ["b", "c"] none
    [⟨"a", []⟩] [⟨"b", []⟩, ⟨"c", []⟩] rfl rfl

/-- A langchain vector-store retriever, characterized by the `k` value passed
in `search_kwargs` at construction time (`none` when `as_retriever` was
called without one, leaving the library default in force). -/
structure VSRetriever where
  searchK : Option Nat
deriving DecidableEq

/-- The `vector_store.as_retriever(...)` construction: records the `k` from
`search_kwargs` when one is given. -/
def as_retriever (searchKwargsK : Option Nat) : VSRetriever :=
  { searchK := searchKwargsK }

/-- The retriever built by `initialize_conversation_chain` in
src/rag_setup.py line 42:
`vector_store.as_retriever(search_kwargs={"k": K_RESULTS})`. -/
def conversation_chain_retriever : VSRetriever :=
  as_retriever (some K_RESULTS)

/-- The retriever built at startup of src/app.py line 175:
`vector_store.as_retriever()` — no `search_kwargs` are passed. -/
def app_main_retriever : VSRetriever :=
  as_retriever none

/-- C8 counterexample: the retriever used for answering in src/app.py is not
configured with K = 25 — it is built without any `k` at all, so it does not
request exactly K_RESULTS nearest chunks. -/
theorem app_retriever_not_k25 :
    app_main_retriever.searchK ≠ some K_RESULTS := by
  decide

/-- C8 amended: the conversation-chain retriever of src/rag_setup.py (used by
src/langchain_app.py) requests exactly K_RESULTS = 25 nearest chunks per
query, while the retriever of src/app.py is built without a `k` setting and
falls back to the library default rather than the configured 25. -/
theorem retriever_k_configuration :
    conversation_chain_retriever.searchK = some 25 ∧
    K_RESULTS = 25 ∧
    app_main_retriever.searchK = none := by
  refine ⟨rfl, rfl, rfl⟩

/-- A chat message in the "messages" format: a role ("system", "user",
"assistant") and text content. -/
structure Message where
  role : String
  content : String
deriving DecidableEq

/-- The accumulation loop of `chat` in src/app.py lines 78-84: starting from
the response accumulated so far, append each streamed delta in turn and
record the response after every delta (a delta whose content is Python
`None` is already mapped to the empty string, as by `content or ""`). -/
def streamGo (acc : String) : List String → List String
  | [] => []
  | d :: ds => (acc ++ d) :: streamGo (acc ++ d) ds

/-- The `chat` generator of src/app.py: after extending the history with the
user turn, it yields, for every streamed delta, the history followed by an
assistant message holding the response accumulated so far. The stream deltas
stand in for the opaque LLM call. -/
def chat (userInput : String) (history : List Message)
    (deltas : List String) : List (List Message) :=
  (streamGo "" deltas).map
    (fun response =>
      (history ++ [⟨"user", userInput⟩]) ++ [⟨"assistant", response⟩])

/-- The `chat_as_messages` function of src/langchain_app.py: appends the user
turn to the history, obtains the answer from the conversation chain, appends
the assistant turn, and returns the history. The conversation chain's answer
stands in as an oracle function of the question. -/
def chat_as_messages (conversationAnswer : String → String)
    (userQuestion : String) (history : List Message) : List Message :=
  (history ++ [⟨"user", userQuestion⟩])
    ++ [⟨"assistant", conversationAnswer userQuestion⟩]

/-- C2 counterexample: the empty question is whitespace-only, yet
`chat_as_messages` raises no error and mutates the history — it returns a
history of length 2 instead of the unchanged empty history. -/
theorem empty_question_mutates_history :
    "".data.all Char.isWhitespace = true ∧
    (chat_as_messages (fun _ => "ok") "" []).length = 2 ∧
    chat_as_messages (fun _ => "ok") "" [] ≠ [] := by
  refine ⟨by decide, rfl, by decide⟩

/-- C2 amended: no entry point validates the question — an empty or
whitespace-only question is processed like any other: `chat_as_messages`
appends the user turn and the assistant turn, returning a history exactly two
messages longer; no InvalidInputError exists in the code. -/
theorem chat_no_validation (conversationAnswer : String → String)
    (q : String) (history : List Message) (_hq : q.data.all Char.isWhitespace = true) :
    chat_as_messages conversationAnswer q history
        = history ++ [⟨"user", q⟩,
            ⟨"assistant", conversationAnswer q⟩] ∧
    (chat_as_messages conversationAnswer q history).length
        = history.length + 2 := by
  constructor
  · simp [chat_as_messages]
  · simp [chat_as_messages]

/-- C2 amended witness: the empty question on an empty history yields a
two-message history. -/
theorem chat_no_validation_witness :
    chat_as_messages (fun _ => "A") "" []
        = [⟨"user", ""⟩, ⟨"assistant", "A"⟩] ∧
    (chat_as_messages (fun _ => "A") "" []).length = 0 + 2 :=
  chat_no_validation (fun _ => "A") "" [] (by decide)

/-- Each position of the accumulation loop's output is the fold of the deltas
consumed so far over the starting accumulator. -/
theorem streamGo_getD :
    ∀ (ds : List String) (acc : String) (i : Nat), i < ds.length →
      (streamGo acc ds).getD i ""
        = (ds.take (i + 1)).foldl (fun a b => a ++ b) acc := by
  intro ds
  induction ds with
  | nil =>
    intro acc i h
    simp at h
  | cons d tl ih =>
    intro acc i h
    cases i with
    | zero =>
      simp [streamGo]
    | succ i =>
      rw [streamGo, List.getD_cons_succ,
        ih (acc ++ d) i (by simpa using h)]
      rfl

/-- The accumulation loop yields one response per delta. -/
theorem streamGo_length :
    ∀ (ds : List String) (acc : String),
      (streamGo acc ds).length = ds.length := by
  intro ds
  induction ds with
  | nil => intro acc; rfl
  | cons d tl ih => intro acc; simp [streamGo, ih]

/-- C9: the streaming chat yields a finite single-pass sequence with one
yield per stream delta; each yielded assistant content extends the previous
one by exactly the next delta (so each is a prefix of the next), and the
final yielded assistant content is the concatenation of all deltas. -/
theorem chat_streaming (userInput : String) (history : List Message)
    (deltas : List String) :
    (chat userInput history deltas).length = deltas.length ∧
    (∀ i, i + 1 < deltas.length →
      (streamGo "" deltas).getD (i + 1) ""
        = (streamGo "" deltas).getD i "" ++ deltas.getD (i + 1) "") ∧
    (deltas ≠ [] →
      (streamGo "" deltas).getD (deltas.length - 1) ""
        = deltas.foldl (fun a b => a ++ b) "") := by
  refine ⟨?_, ?_, ?_⟩
  · rw [chat, List.length_map, streamGo_length]
  · intro i h
    rw [streamGo_getD deltas "" (i + 1) h,
      streamGo_getD deltas "" i (by omega)]
    have hsome : deltas[i + 1]? = some (deltas.getD (i + 1) "") := by
      rw [List.getD_eq_getElem?_getD, List.getElem?_eq_getElem h]
      rfl
    rw [List.take_succ, hsome, Option.toList_some, List.foldl_append]
    rfl
  · intro h
    have hpos : 0 < deltas.length := List.length_pos.mpr h
    rw [streamGo_getD deltas "" (deltas.length - 1) (by omega),
      Nat.sub_add_cancel hpos, List.take_length]

/-- C9 witness: for the delta stream "a", "b" the chat yields two histories,
the second yielded content extends the first by the second delta, and the
final yielded content is the concatenation of all deltas. -/
theorem chat_streaming_witness :
    (chat "q" [] ["a", "b"]).length = 2 ∧
    (streamGo "" ["a", "b"]).getD 1 ""
        = (streamGo "" ["a", "b"]).getD 0 "" ++ "b" ∧
    (streamGo "" ["a", "b"]).getD 1 "" = "ab" := by
  obtain ⟨h1, h2, h3⟩ := chat_streaming "q" [] ["a", "b"]
  exact ⟨h1, h2 0 (by decide), h3 (by decide)⟩

end CalisMind
